import Mathlib

/-!
# The gRPC expander strategy of the cluster autoscaler

A shallow embedding of `cluster-autoscaler/expander/grpcplugin/grpc_client_strategy.go`
and of `cluster-autoscaler/cloudprovider/aws/ec2.go`, followed by the properties of the
decision-delegation strategy and of the launch-template helpers.

Conventions of the embedding:

* a Go slice is a `Slice`: either `nil` or a non-nil slice with a list of elements, so
  that the comparisons `x == nil` of the source keep their meaning;
* a Go map is a `GoMap`: a finite list of entries with pairwise distinct keys;
* the Go types that the source imports without inspecting them (`*v1.Pod`, `*v1.Node`,
  `cloudprovider.NodeGroup`, `*schedulerframework.NodeInfo`) are type parameters; the
  two methods that the source calls on them, `NodeGroup.Id()` and `NodeInfo.Node()`,
  are the fields of the classes `cloudprovider.NodeGroup` and
  `schedulerframework.NodeInfo`;
* the pointers that the source dereferences without a check are taken non-nil: the
  response of a call with `err == nil` and the entries of its option list, as the
  generated gRPC client delivers them, and the node group of a candidate;
* in `ec2.go` the pointers of the describe result may be nil (`Ptr`), and a method that
  dereferences a nil pointer stops with a `GoPanic`; the parameters `ltSpec` and
  `launchTemplate` are taken non-nil;
* the remote client is a transition on an arbitrary state `σ`, so that the number of
  calls and the context and the request of each call can be observed; a context is its
  timeout, and the passing of time itself is not part of the embedding;
* logging (`klog`) has no effect on the results and is left out.
-/

set_option autoImplicit false

/-! ## Go values -/

/-- A pointer that may be nil. -/
abbrev Ptr (α : Type) : Type := Option α

/-- A Go slice value: the nil slice, or a non-nil slice holding `elems`
(`Slice.mk []` is the empty, non-nil slice `[]T{}`). -/
inductive Slice (α : Type) where
  | nil : Slice α
  | mk (elems : List α) : Slice α
  deriving DecidableEq, Repr

namespace Slice

variable {α : Type}

/-- The elements a `for ... range` loop visits, in order. -/
def toList : Slice α → List α
  | nil => []
  | mk elems => elems

/-- Go `len(s)`. -/
def len (s : Slice α) : Nat := s.toList.length

/-- Go `s == nil`. -/
def isNil : Slice α → Bool
  | nil => true
  | mk _ => false

/-- Go `append(s, x)`: the result is never nil. -/
def append (s : Slice α) (x : α) : Slice α := mk (s.toList ++ [x])

end Slice

/-- Entries of a map after the assignment `m[k] = v`: the value of an existing
key is replaced, a new key is added. -/
def GoMap.setEntries {κ ν : Type} [DecidableEq κ] : List (κ × ν) → κ → ν → List (κ × ν)
  | [], k, v => [(k, v)]
  | e :: rest, k, v => if e.1 = k then (k, v) :: rest else e :: GoMap.setEntries rest k v

/-- A Go map: finitely many entries, no key twice. -/
structure GoMap (κ ν : Type) where
  entries : List (κ × ν)
  nodupKeys : (entries.map Prod.fst).Nodup

namespace GoMap

variable {κ ν : Type}

/-- Go `make(map[K]V)`. -/
def empty : GoMap κ ν := ⟨[], List.nodup_nil⟩

/-- The keys of the map. -/
def keys (m : GoMap κ ν) : List κ := m.entries.map Prod.fst

/-- Go `len(m)`. -/
def len (m : GoMap κ ν) : Nat := m.entries.length

/-- Go `v, ok := m[k]`: `some v` when `ok`, `none` otherwise. -/
def get? [DecidableEq κ] (m : GoMap κ ν) (k : κ) : Option ν :=
  (m.entries.find? (fun e => decide (e.1 = k))).map Prod.snd

/-- Go `m[k] = v`. -/
def set [DecidableEq κ] (m : GoMap κ ν) (k : κ) (v : ν) : GoMap κ ν where
  entries := GoMap.setEntries m.entries k v
  nodupKeys := by
    have key : ∀ l : List (κ × ν), (l.map Prod.fst).Nodup →
        ((GoMap.setEntries l k v).map Prod.fst).Nodup ∧
        ∀ a, a ∈ (GoMap.setEntries l k v).map Prod.fst → a = k ∨ a ∈ l.map Prod.fst := by
      intro l
      induction l with
      | nil =>
        intro _
        simp [GoMap.setEntries]
      | cons e rest ih =>
        intro h
        rw [List.map_cons, List.nodup_cons] at h
        obtain ⟨hnot, hrest⟩ := h
        obtain ⟨ih1, ih2⟩ := ih hrest
        by_cases hk : e.1 = k
        · subst hk
          simp only [GoMap.setEntries, if_true, List.map_cons, List.nodup_cons]
          exact ⟨⟨hnot, hrest⟩, fun a ha => by
            rcases List.mem_cons.1 ha with h1 | h1
            · exact Or.inl h1
            · exact Or.inr (List.mem_cons_of_mem _ h1)⟩
        · simp only [GoMap.setEntries, if_neg hk, List.map_cons, List.nodup_cons]
          refine ⟨⟨fun hmem => ?_, ih1⟩, fun a ha => ?_⟩
          · rcases ih2 _ hmem with h1 | h1
            · exact hk h1
            · exact hnot h1
          · rcases List.mem_cons.1 ha with h1 | h1
            · exact Or.inr (h1 ▸ List.mem_cons_self _ _)
            · rcases ih2 a h1 with h2 | h2
              · exact Or.inl h2
              · exact Or.inr (List.mem_cons_of_mem _ h2)
    exact (key m.entries m.nodupKeys).1

end GoMap

/-- Go conversion `int32(n)` of an `int`: the value modulo `2^32`, read as a
signed 32-bit integer. -/
def int32 (n : Int) : Int := (n + 2 ^ 31) % 2 ^ 32 - 2 ^ 31

/-- The type `time.Duration`: a number of nanoseconds. -/
abbrev time.Duration : Type := Int

/-- The constant `time.Second`. -/
def time.Second : time.Duration := 1000000000

/-- A `context.Context`, as far as the source uses it: `timeout` is `none` when the
context has no deadline, and `some d` when its deadline lies `d` after the moment the
context was made. -/
structure context.Context where
  timeout : Ptr time.Duration
  deriving DecidableEq, Repr

/-- The function `context.Background`: the context without a deadline. -/
def context.Background : context.Context := { timeout := none }

/-- The function `context.WithTimeout`: the deadline of the new context is `timeout` after
now, or the deadline of the parent when that one is earlier. The cancel function that Go
returns with it only frees resources and is left out. -/
def context.WithTimeout (parent : context.Context) (timeout : time.Duration) :
    context.Context :=
  match parent.timeout with
  | none => { timeout := some timeout }
  | some earlier => { timeout := some (min earlier timeout) }

/-! ## The imported types -/

/-- The interface `cloudprovider.NodeGroup`; the source calls only `Id()`. -/
class cloudprovider.NodeGroup (NG : Type) where
  Id : NG → String

/-- The type `*schedulerframework.NodeInfo`; the source calls only `Node()`,
which gives a `*v1.Node`. -/
class schedulerframework.NodeInfo (NI : Type) (Node : outParam Type) where
  Node : NI → Node

/-- The struct `expander.Option`: one candidate of a scale-up round. -/
structure expander.Option (NG Pod : Type) where
  NodeGroup : NG
  NodeCount : Int
  Debug : String
  Pods : Slice Pod
  deriving DecidableEq, Repr

/-- The interface `expander.Strategy`: a local selection of one candidate. -/
structure expander.Strategy (NG Pod NI : Type) where
  BestOption : Slice (expander.Option NG Pod) → GoMap String NI → Ptr (expander.Option NG Pod)

/-! ## The wire messages -/

/-- The message `Option` of the package: one candidate on the wire. -/
structure grpcplugin.Option (Pod : Type) where
  NodeGroupId : String
  NodeCount : Int
  Debug : String
  Pod : Slice Pod
  deriving DecidableEq, Repr

/-- The message `BestOptionsRequest`. -/
structure grpcplugin.BestOptionsRequest (Pod Node : Type) where
  Options : Slice (grpcplugin.Option Pod)
  NodeInfoMap : GoMap String Node

/-- The message `BestOptionsResponse`; the entries of `Options` are the
messages the remote service sent, each naming one identifier. -/
structure grpcplugin.BestOptionsResponse (Pod : Type) where
  Options : Slice (grpcplugin.Option Pod)

/-- The interface `ExpanderClient`. `BestOptions` is one call of the remote
operation: from the state of the outside world, the context and the request it gives
`(response, err)`, as `Except.ok response` when `err == nil` and
`Except.error err` otherwise (transport error or deadline exceeded), and the next
state of the outside world. -/
structure grpcplugin.ExpanderClient (σ Pod Node : Type) where
  BestOptions : σ → context.Context → grpcplugin.BestOptionsRequest Pod Node →
    Except String (grpcplugin.BestOptionsResponse Pod) × σ

/-! ## grpc_client_strategy.go -/

/-- The struct `grpcclientstrategy`. -/
structure grpcplugin.grpcclientstrategy (σ NG Pod NI Node : Type) where
  fallbackStrategy : expander.Strategy NG Pod NI
  grpcClient : grpcplugin.ExpanderClient σ Pod Node

section grpc_client_strategy

variable {σ NG Pod NI Node : Type}

/-- The function `newOptionMessage`. -/
def grpcplugin.newOptionMessage (nodeGroupId : String) (nodeCount : Int) (debug : String)
    (pods : Slice Pod) : grpcplugin.Option Pod :=
  { NodeGroupId := nodeGroupId, NodeCount := nodeCount, Debug := debug, Pod := pods }

/-- The function `populateOptionsForGRPC`: the loop over `expansionOptions` updates the
map and the slice it is given; the pair of their final values is returned. -/
def grpcplugin.populateOptionsForGRPC [cloudprovider.NodeGroup NG]
    (expansionOptions : Slice (expander.Option NG Pod))
    (nodeGroupIDOptionMap : GoMap String (expander.Option NG Pod))
    (grpcOptionsSlice : Slice (grpcplugin.Option Pod)) :
    GoMap String (expander.Option NG Pod) × Slice (grpcplugin.Option Pod) :=
  expansionOptions.toList.foldl
    (fun st option =>
      (st.1.set (cloudprovider.NodeGroup.Id option.NodeGroup) option,
       st.2.append (grpcplugin.newOptionMessage (cloudprovider.NodeGroup.Id option.NodeGroup)
          (int32 option.NodeCount) option.Debug option.Pods)))
    (nodeGroupIDOptionMap, grpcOptionsSlice)

/-- The function `populateNodeInfoForGRPC`: the loop over the entries of `nodeInfos`
updates the map it is given; its final value is returned. -/
def grpcplugin.populateNodeInfoForGRPC [schedulerframework.NodeInfo NI Node]
    (nodeInfos : GoMap String NI) (grpcNodeInfoMap : GoMap String Node) : GoMap String Node :=
  nodeInfos.entries.foldl
    (fun m e => m.set e.1 (schedulerframework.NodeInfo.Node e.2))
    grpcNodeInfoMap

/-- The loop of `transformAndSanitizeOptionsFromGRPC` on the entries still to visit,
`options` being the value of the local variable so far. -/
def grpcplugin.transformAndSanitizeLoop
    (nodeGroupIDOptionMap : GoMap String (expander.Option NG Pod)) :
    List (grpcplugin.Option Pod) → Slice (expander.Option NG Pod) →
      Slice (expander.Option NG Pod)
  | [], options => options
  | option :: rest, options =>
    match nodeGroupIDOptionMap.get? option.NodeGroupId with
    | some found => grpcplugin.transformAndSanitizeLoop nodeGroupIDOptionMap rest
        (options.append found)
    | none => Slice.nil

/-- The function `transformAndSanitizeOptionsFromGRPC`: `var options` starts as the
nil slice. -/
def grpcplugin.transformAndSanitizeOptionsFromGRPC
    (bestOptionsResponseOptions : Slice (grpcplugin.Option Pod))
    (nodeGroupIDOptionMap : GoMap String (expander.Option NG Pod)) :
    Slice (expander.Option NG Pod) :=
  grpcplugin.transformAndSanitizeLoop nodeGroupIDOptionMap
    bestOptionsResponseOptions.toList Slice.nil

/-- The method `BestOptions` of `grpcclientstrategy`, run in the state `s` of the
outside world: the returned slice and the state after the method. -/
def grpcplugin.grpcclientstrategy.BestOptions [cloudprovider.NodeGroup NG]
    [schedulerframework.NodeInfo NI Node]
    (g : grpcplugin.grpcclientstrategy σ NG Pod NI Node) (s : σ)
    (expansionOptions : Slice (expander.Option NG Pod)) (nodeInfo : GoMap String NI) :
    Slice (expander.Option NG Pod) × σ :=
  let populated := grpcplugin.populateOptionsForGRPC expansionOptions GoMap.empty (Slice.mk [])
  let nodeGroupIDOptionMap := populated.1
  let grpcOptionsSlice := populated.2
  let grpcNodeInfoMap := grpcplugin.populateNodeInfoForGRPC nodeInfo GoMap.empty
  let ctx := context.WithTimeout context.Background (5 * time.Second)
  let called := g.grpcClient.BestOptions s ctx
    { Options := grpcOptionsSlice, NodeInfoMap := grpcNodeInfoMap }
  match called.1 with
  | Except.error _ => (expansionOptions, called.2)
  | Except.ok bestOptionsResponse =>
    if bestOptionsResponse.Options.isNil then (expansionOptions, called.2)
    else
      let options := grpcplugin.transformAndSanitizeOptionsFromGRPC
        bestOptionsResponse.Options nodeGroupIDOptionMap
      if options.isNil then (expansionOptions, called.2)
      else (options, called.2)

/-- The request that `BestOptions` hands to the remote client: the wire option list
and the wire node map built from the inputs of the round. -/
def grpcplugin.requestOf [cloudprovider.NodeGroup NG] [schedulerframework.NodeInfo NI Node]
    (expansionOptions : Slice (expander.Option NG Pod)) (nodeInfo : GoMap String NI) :
    grpcplugin.BestOptionsRequest Pod Node :=
  { Options := (grpcplugin.populateOptionsForGRPC expansionOptions GoMap.empty (Slice.mk [])).2,
    NodeInfoMap := grpcplugin.populateNodeInfoForGRPC nodeInfo GoMap.empty }

/-- The context under which `BestOptions` makes its remote call. -/
def grpcplugin.roundContext : context.Context :=
  context.WithTimeout context.Background (5 * time.Second)

/-- The outcome `(response, err)` of the remote call that `BestOptions` makes in the
state `s`. -/
def grpcplugin.grpcclientstrategy.remoteOutcome [cloudprovider.NodeGroup NG]
    [schedulerframework.NodeInfo NI Node]
    (g : grpcplugin.grpcclientstrategy σ NG Pod NI Node) (s : σ)
    (expansionOptions : Slice (expander.Option NG Pod)) (nodeInfo : GoMap String NI) :
    Except String (grpcplugin.BestOptionsResponse Pod) :=
  (g.grpcClient.BestOptions s grpcplugin.roundContext
    (grpcplugin.requestOf expansionOptions nodeInfo)).1

/-- The wire message that `populateOptionsForGRPC` appends for one candidate. -/
def grpcplugin.wireOf [cloudprovider.NodeGroup NG] (option : expander.Option NG Pod) :
    grpcplugin.Option Pod :=
  grpcplugin.newOptionMessage (cloudprovider.NodeGroup.Id option.NodeGroup)
    (int32 option.NodeCount) option.Debug option.Pods

/-- The map that the loop of `populateOptionsForGRPC` leaves after the candidates `l`,
started on the map `m`. -/
def grpcplugin.lookupAfter [cloudprovider.NodeGroup NG] (l : List (expander.Option NG Pod))
    (m : GoMap String (expander.Option NG Pod)) : GoMap String (expander.Option NG Pod) :=
  l.foldl (fun acc option => acc.set (cloudprovider.NodeGroup.Id option.NodeGroup) option) m

end grpc_client_strategy

/-! ## Concrete instances for the examples -/

/-- A node group that is its identifier and nothing else. -/
structure NamedNodeGroup where
  name : String
  deriving DecidableEq, Repr

instance : cloudprovider.NodeGroup NamedNodeGroup := ⟨NamedNodeGroup.name⟩

/-- A node info that holds its node (a name) and the number of pods placed on it. -/
structure CountingNodeInfo where
  node : String
  pods : Nat
  deriving DecidableEq, Repr

instance : schedulerframework.NodeInfo CountingNodeInfo String := ⟨CountingNodeInfo.node⟩

/-- A candidate for the node group `name` with `count` nodes, no debug text, no pods. -/
def candidate (name : String) (count : Int) : expander.Option NamedNodeGroup String :=
  { NodeGroup := ⟨name⟩, NodeCount := count, Debug := "", Pods := Slice.nil }

/-- A response entry naming `name`. -/
def entry (name : String) : grpcplugin.Option String :=
  { NodeGroupId := name, NodeCount := 0, Debug := "", Pod := Slice.nil }

/-- A remote client that answers every call with `reply` and whose state is the
list of the requests it has received. -/
def recordingClient (reply : Except String (grpcplugin.BestOptionsResponse String)) :
    grpcplugin.ExpanderClient (List (grpcplugin.BestOptionsRequest String String)) String String :=
  { BestOptions := fun s _ req => (reply, s ++ [req]) }

/-- A strategy over `recordingClient reply` whose substitute strategy selects nothing. -/
def recordingStrategy (reply : Except String (grpcplugin.BestOptionsResponse String)) :
    grpcplugin.grpcclientstrategy (List (grpcplugin.BestOptionsRequest String String))
      NamedNodeGroup String CountingNodeInfo String :=
  { fallbackStrategy := { BestOption := fun _ _ => none }, grpcClient := recordingClient reply }

/-- The two candidates of the scenario: `ng-a` with 3 nodes, `ng-b` with 1 node. -/
def scenario : Slice (expander.Option NamedNodeGroup String) :=
  Slice.mk [candidate "ng-a" 3, candidate "ng-b" 1]

/-- The same remote client with a log: every call is handed to `c` and its request is
added at the end of the list of the requests made so far. -/
def grpcplugin.ExpanderClient.recorded {σ Pod Node : Type}
    (c : grpcplugin.ExpanderClient σ Pod Node) :
    grpcplugin.ExpanderClient (σ × List (grpcplugin.BestOptionsRequest Pod Node)) Pod Node :=
  { BestOptions := fun st ctx req => ((c.BestOptions st.1 ctx req).1,
      ((c.BestOptions st.1 ctx req).2, st.2 ++ [req])) }

/-- A strategy over `recordingClient reply` whose substitute strategy selects the first
candidate it is given. -/
def firstPickStrategy (reply : Except String (grpcplugin.BestOptionsResponse String)) :
    grpcplugin.grpcclientstrategy (List (grpcplugin.BestOptionsRequest String String))
      NamedNodeGroup String CountingNodeInfo String :=
  { fallbackStrategy := { BestOption := fun options _ => options.toList.head? },
    grpcClient := recordingClient reply }

/-- A node context of two nodes. -/
def twoNodes : GoMap String CountingNodeInfo :=
  (GoMap.empty.set "node-1" ⟨"descriptor-1", 4⟩).set "node-2" ⟨"descriptor-2", 0⟩

/-! ## The construction of the strategy -/

/-- A run-time panic of Go. -/
inductive GoPanic where
  | nilPointerDereference : GoPanic
  deriving DecidableEq, Repr

/-- The function `aws.StringValue` of the SDK: the string a pointer points to, the empty
string for the nil pointer. (`aws.String(s)`, the pointer to `s`, is `some s`.) -/
def aws.StringValue (v : Ptr String) : String :=
  match v with
  | some s => s
  | none => ""

/-- The SDK struct `autoscaling.LaunchTemplateSpecification`. -/
structure autoscaling.LaunchTemplateSpecification where
  LaunchTemplateId : Ptr String
  LaunchTemplateName : Ptr String
  Version : Ptr String
  deriving DecidableEq, Repr

/-- The struct `launchTemplate` of the package, declared outside `ec2.go`; `ec2.go` and
its test use its two fields `name` and `version`. -/
structure launchTemplate where
  name : String
  version : String
  deriving DecidableEq, Repr

/-- The SDK struct `ec2.DescribeLaunchTemplateVersionsInput`, with the two fields that the
source sets. -/
structure ec2.DescribeLaunchTemplateVersionsInput where
  LaunchTemplateName : Ptr String
  Versions : Slice (Ptr String)
  deriving DecidableEq, Repr

/-- The SDK struct `ec2.ResponseLaunchTemplateData`, with the field that the source
reads. -/
structure ec2.ResponseLaunchTemplateData where
  InstanceType : Ptr String
  deriving DecidableEq, Repr

/-- The SDK struct `ec2.LaunchTemplateVersion`, with the field that the source reads. -/
structure ec2.LaunchTemplateVersion where
  LaunchTemplateData : Ptr ec2.ResponseLaunchTemplateData
  deriving DecidableEq, Repr

/-- The SDK struct `ec2.DescribeLaunchTemplateVersionsOutput`, with the field that the
source reads. -/
structure ec2.DescribeLaunchTemplateVersionsOutput where
  LaunchTemplateVersions : Slice (Ptr ec2.LaunchTemplateVersion)
  deriving DecidableEq, Repr

/-- The interface `ec2I`: the describe operation gives `(output, err)`, a pointer that
may be nil and an error that is `none` when `err == nil`. -/
structure ec2I where
  DescribeLaunchTemplateVersions : ec2.DescribeLaunchTemplateVersionsInput →
    Ptr ec2.DescribeLaunchTemplateVersionsOutput × Ptr String

/-- The struct `ec2Wrapper`, which embeds an `ec2I`. -/
structure ec2Wrapper where
  ec2I : ec2I

/-- The parameters that `getInstanceTypeByLT` builds for the describe operation. -/
def ec2Wrapper.describeParams (lt : launchTemplate) : ec2.DescribeLaunchTemplateVersionsInput :=
  { LaunchTemplateName := some lt.name, Versions := Slice.mk [some lt.version] }

/-- The method `getInstanceTypeByLT`: the pair `(instance type, err)` it returns, or the
panic it stops with when it dereferences a nil pointer. -/
def ec2Wrapper.getInstanceTypeByLT (m : ec2Wrapper) (lt : launchTemplate) :
    Except GoPanic (String × Ptr String) :=
  let params : ec2.DescribeLaunchTemplateVersionsInput :=
    { LaunchTemplateName := some lt.name, Versions := Slice.mk [some lt.version] }
  let described := m.ec2I.DescribeLaunchTemplateVersions params
  match described.2 with
  | some err => Except.ok ("", some err)
  | none =>
    match described.1 with
    | none => Except.error GoPanic.nilPointerDereference
    | some describeData =>
      match describeData.LaunchTemplateVersions.toList with
      | [] => Except.ok ("", some "unable to find template versions")
      | first :: _ =>
        match first with
        | none => Except.error GoPanic.nilPointerDereference
        | some version =>
          match version.LaunchTemplateData with
          | none => Except.error GoPanic.nilPointerDereference
          | some data =>
            match data.InstanceType with
            | none => Except.ok ("", some "unable to find instance type within launch template")
            | some instanceType => Except.ok (instanceType, none)

/-- The function `buildLaunchTemplateFromSpec`. -/
def buildLaunchTemplateFromSpec (ltSpec : autoscaling.LaunchTemplateSpecification) :
    launchTemplate :=
  let version : String :=
    match ltSpec.Version with
    | none => "$Default"
    | some _ => aws.StringValue ltSpec.Version
  { name := aws.StringValue ltSpec.LaunchTemplateName, version := version }

/-- A describe operation that answers every query with `reply`. -/
def fixedDescribe (reply : Ptr ec2.DescribeLaunchTemplateVersionsOutput × Ptr String) :
    ec2Wrapper :=
  { ec2I := { DescribeLaunchTemplateVersions := fun _ => reply } }

/-! ## Lemmas on Go maps -/

namespace GoMap

variable {κ ν : Type} [DecidableEq κ]

theorem find?_setEntries_self (l : List (κ × ν)) (k : κ) (v : ν) :
    (GoMap.setEntries l k v).find? (fun e => decide (e.1 = k)) = some (k, v) := by
  induction l with
  | nil => simp [GoMap.setEntries]
  | cons e rest ih =>
    by_cases hk : e.1 = k
    · simp [GoMap.setEntries, hk]
    · simp [GoMap.setEntries, hk, List.find?_cons, ih]

theorem find?_setEntries_ne (l : List (κ × ν)) (k k' : κ) (v : ν) (hne : k' ≠ k) :
    (GoMap.setEntries l k v).find? (fun e => decide (e.1 = k')) =
      l.find? (fun e => decide (e.1 = k')) := by
  induction l with
  | nil => simp [GoMap.setEntries, List.find?_cons, Ne.symm hne]
  | cons e rest ih =>
    by_cases hk : e.1 = k
    · have h1 : ¬ e.1 = k' := fun h => hne (h.symm.trans hk)
      simp [GoMap.setEntries, hk, List.find?_cons, Ne.symm hne, h1, hk ▸ h1]
    · simp only [GoMap.setEntries, if_neg hk, List.find?_cons, ih]

theorem get?_empty (k : κ) : (GoMap.empty : GoMap κ ν).get? k = none := rfl

theorem get?_set_self (m : GoMap κ ν) (k : κ) (v : ν) : (m.set k v).get? k = some v := by
  simp [get?, set, find?_setEntries_self]

theorem get?_set_ne (m : GoMap κ ν) (k k' : κ) (v : ν) (hne : k' ≠ k) :
    (m.set k v).get? k' = m.get? k' := by
  simp [get?, set, find?_setEntries_ne _ _ _ _ hne]

theorem mem_keys_iff (m : GoMap κ ν) (k : κ) : k ∈ m.keys ↔ ∃ v, m.get? k = some v := by
  unfold keys get?
  induction m.entries with
  | nil => simp
  | cons e rest ih =>
    by_cases hk : e.1 = k
    · simp [List.find?_cons, hk]
    · have hk' : ¬ k = e.1 := fun h => hk h.symm
      simp only [List.map_cons, List.mem_cons, hk', false_or, ih, List.find?_cons, hk,
        decide_False]

theorem mem_keys_set (m : GoMap κ ν) (k a : κ) (v : ν) :
    a ∈ (m.set k v).keys ↔ a = k ∨ a ∈ m.keys := by
  rw [mem_keys_iff, mem_keys_iff]
  by_cases h : a = k
  · subst h
    simp [get?_set_self]
  · simp [get?_set_ne _ _ _ _ h, h]

end GoMap

/-! ## Lemmas on the marshaller -/

section marshaller

variable {NG Pod : Type} [cloudprovider.NodeGroup NG]

theorem populate_fold (l : List (expander.Option NG Pod))
    (m : GoMap String (expander.Option NG Pod)) (x : List (grpcplugin.Option Pod)) :
    l.foldl
      (fun st option =>
        (st.1.set (cloudprovider.NodeGroup.Id option.NodeGroup) option,
         st.2.append (grpcplugin.newOptionMessage (cloudprovider.NodeGroup.Id option.NodeGroup)
            (int32 option.NodeCount) option.Debug option.Pods)))
      (m, Slice.mk x)
    = (grpcplugin.lookupAfter l m, Slice.mk (x ++ l.map grpcplugin.wireOf)) := by
  induction l generalizing m x with
  | nil => simp [grpcplugin.lookupAfter]
  | cons c rest ih =>
    rw [List.foldl_cons]
    refine (ih (m.set (cloudprovider.NodeGroup.Id c.NodeGroup) c)
      (x ++ [grpcplugin.wireOf c])).trans ?_
    simp [grpcplugin.lookupAfter]

theorem populate_eq (expansionOptions : Slice (expander.Option NG Pod))
    (m : GoMap String (expander.Option NG Pod)) (x : List (grpcplugin.Option Pod)) :
    grpcplugin.populateOptionsForGRPC expansionOptions m (Slice.mk x) =
      (grpcplugin.lookupAfter expansionOptions.toList m,
        Slice.mk (x ++ expansionOptions.toList.map grpcplugin.wireOf)) :=
  populate_fold expansionOptions.toList m x

theorem lookupAfter_cons (c : expander.Option NG Pod) (rest : List (expander.Option NG Pod))
    (m : GoMap String (expander.Option NG Pod)) :
    grpcplugin.lookupAfter (c :: rest) m =
      grpcplugin.lookupAfter rest (m.set (cloudprovider.NodeGroup.Id c.NodeGroup) c) := rfl

theorem lookupAfter_get?_of_not_mem (l : List (expander.Option NG Pod))
    (m : GoMap String (expander.Option NG Pod)) (k : String)
    (hk : k ∉ l.map (fun c => cloudprovider.NodeGroup.Id c.NodeGroup)) :
    (grpcplugin.lookupAfter l m).get? k = m.get? k := by
  induction l generalizing m with
  | nil => rfl
  | cons c rest ih =>
    rw [List.map_cons, List.mem_cons, not_or] at hk
    rw [lookupAfter_cons, ih _ hk.2, GoMap.get?_set_ne _ _ _ _ hk.1]

theorem lookupAfter_get?_some (l : List (expander.Option NG Pod))
    (m : GoMap String (expander.Option NG Pod)) (k : String) (v : expander.Option NG Pod)
    (h : (grpcplugin.lookupAfter l m).get? k = some v) :
    m.get? k = some v ∨ (v ∈ l ∧ cloudprovider.NodeGroup.Id v.NodeGroup = k) := by
  induction l generalizing m with
  | nil => exact Or.inl h
  | cons c rest ih =>
    rw [lookupAfter_cons] at h
    rcases ih _ h with h1 | ⟨h1, h2⟩
    · by_cases hk : k = cloudprovider.NodeGroup.Id c.NodeGroup
      · subst hk
        rw [GoMap.get?_set_self] at h1
        injection h1 with h1
        subst h1
        exact Or.inr ⟨List.mem_cons_self _ _, rfl⟩
      · rw [GoMap.get?_set_ne _ _ _ _ hk] at h1
        exact Or.inl h1
    · exact Or.inr ⟨List.mem_cons_of_mem _ h1, h2⟩

theorem lookupAfter_mem_keys (l : List (expander.Option NG Pod))
    (m : GoMap String (expander.Option NG Pod)) (k : String) :
    k ∈ (grpcplugin.lookupAfter l m).keys ↔
      k ∈ m.keys ∨ k ∈ l.map (fun c => cloudprovider.NodeGroup.Id c.NodeGroup) := by
  induction l generalizing m with
  | nil => simp [grpcplugin.lookupAfter]
  | cons c rest ih =>
    rw [lookupAfter_cons, ih, GoMap.mem_keys_set, List.map_cons, List.mem_cons]
    tauto

theorem lookupAfter_get?_of_nodup (l : List (expander.Option NG Pod))
    (m : GoMap String (expander.Option NG Pod))
    (hl : (l.map (fun c => cloudprovider.NodeGroup.Id c.NodeGroup)).Nodup)
    (c : expander.Option NG Pod) (hc : c ∈ l) :
    (grpcplugin.lookupAfter l m).get? (cloudprovider.NodeGroup.Id c.NodeGroup) = some c := by
  induction l generalizing m with
  | nil => cases hc
  | cons d rest ih =>
    rw [List.map_cons, List.nodup_cons] at hl
    rw [lookupAfter_cons]
    rcases List.mem_cons.1 hc with h | h
    · subst h
      rw [lookupAfter_get?_of_not_mem _ _ _ hl.1, GoMap.get?_set_self]
    · exact ih _ hl.2 h

end marshaller

/-! ## Lemmas on the sanitizer -/

section sanitizer

variable {NG Pod : Type}

theorem loop_missing (m : GoMap String (expander.Option NG Pod))
    (l : List (grpcplugin.Option Pod)) (acc : Slice (expander.Option NG Pod))
    (h : ∃ e ∈ l, m.get? e.NodeGroupId = none) :
    grpcplugin.transformAndSanitizeLoop m l acc = Slice.nil := by
  induction l generalizing acc with
  | nil =>
    obtain ⟨e, he, _⟩ := h
    cases he
  | cons d rest ih =>
    unfold grpcplugin.transformAndSanitizeLoop
    cases hd : m.get? d.NodeGroupId with
    | none => rfl
    | some found =>
      obtain ⟨e, he, hnone⟩ := h
      rcases List.mem_cons.1 he with h1 | h1
      · subst h1
        rw [hd] at hnone
        cases hnone
      · exact ih _ ⟨e, h1, hnone⟩

theorem loop_found (m : GoMap String (expander.Option NG Pod))
    (l : List (grpcplugin.Option Pod)) (acc : Slice (expander.Option NG Pod))
    (h : ∀ e ∈ l, ∃ v, m.get? e.NodeGroupId = some v) :
    ∃ r, List.Forall₂ (fun c e => m.get? e.NodeGroupId = some c) r l ∧
      (grpcplugin.transformAndSanitizeLoop m l acc).toList = acc.toList ++ r ∧
      (l ≠ [] → grpcplugin.transformAndSanitizeLoop m l acc = Slice.mk (acc.toList ++ r)) := by
  induction l generalizing acc with
  | nil =>
    exact ⟨[], List.Forall₂.nil, by simp [grpcplugin.transformAndSanitizeLoop],
      fun hne => absurd rfl hne⟩
  | cons d rest ih =>
    obtain ⟨v, hv⟩ := h d (List.mem_cons_self _ _)
    obtain ⟨r, hr, hlist, hmk⟩ := ih (acc.append v) (fun e he => h e (List.mem_cons_of_mem _ he))
    have hstep : grpcplugin.transformAndSanitizeLoop m (d :: rest) acc =
        grpcplugin.transformAndSanitizeLoop m rest (acc.append v) := by
      rw [grpcplugin.transformAndSanitizeLoop, hv]
    have happ : (acc.append v).toList = acc.toList ++ [v] := rfl
    refine ⟨v :: r, List.Forall₂.cons hv hr, ?_, fun _ => ?_⟩
    · rw [hstep, hlist, happ, List.append_assoc, List.singleton_append]
    · rw [hstep]
      cases rest with
      | nil =>
        cases hr
        simp [grpcplugin.transformAndSanitizeLoop, Slice.append]
      | cons d2 rest2 =>
        rw [hmk (List.cons_ne_nil _ _), happ, List.append_assoc, List.singleton_append]

theorem sanitize_missing (resp : Slice (grpcplugin.Option Pod))
    (m : GoMap String (expander.Option NG Pod))
    (h : ∃ e ∈ resp.toList, m.get? e.NodeGroupId = none) :
    grpcplugin.transformAndSanitizeOptionsFromGRPC resp m = Slice.nil :=
  loop_missing m resp.toList Slice.nil h

theorem sanitize_found (resp : Slice (grpcplugin.Option Pod))
    (m : GoMap String (expander.Option NG Pod))
    (h : ∀ e ∈ resp.toList, ∃ v, m.get? e.NodeGroupId = some v) :
    ∃ r, List.Forall₂ (fun c e => m.get? e.NodeGroupId = some c) r resp.toList ∧
      (grpcplugin.transformAndSanitizeOptionsFromGRPC resp m).toList = r ∧
      (resp.toList ≠ [] → grpcplugin.transformAndSanitizeOptionsFromGRPC resp m = Slice.mk r) := by
  obtain ⟨r, hr, h1, h2⟩ := loop_found m resp.toList Slice.nil h
  exact ⟨r, hr, by simpa [Slice.toList] using h1, fun hne => by simpa [Slice.toList] using h2 hne⟩

theorem sanitize_cases (resp : Slice (grpcplugin.Option Pod))
    (m : GoMap String (expander.Option NG Pod)) :
    grpcplugin.transformAndSanitizeOptionsFromGRPC resp m = Slice.nil ∨
    List.Forall₂ (fun c e => m.get? e.NodeGroupId = some c)
      (grpcplugin.transformAndSanitizeOptionsFromGRPC resp m).toList resp.toList := by
  by_cases h : ∀ e ∈ resp.toList, ∃ v, m.get? e.NodeGroupId = some v
  · obtain ⟨r, hr, h1, _⟩ := sanitize_found resp m h
    exact Or.inr (h1 ▸ hr)
  · refine Or.inl (sanitize_missing resp m ?_)
    push_neg at h
    obtain ⟨e, he, hne⟩ := h
    refine ⟨e, he, ?_⟩
    cases hg : m.get? e.NodeGroupId with
    | none => rfl
    | some v => exact absurd hg (hne v)

end sanitizer

/-! ## Lemmas on `BestOptions` -/

section bestOptions

variable {σ NG Pod NI Node : Type} [cloudprovider.NodeGroup NG]
  [schedulerframework.NodeInfo NI Node]

theorem bestOptions_of_error (g : grpcplugin.grpcclientstrategy σ NG Pod NI Node) (s : σ)
    (expansionOptions : Slice (expander.Option NG Pod)) (nodeInfo : GoMap String NI)
    (err : String) (h : g.remoteOutcome s expansionOptions nodeInfo = Except.error err) :
    (g.BestOptions s expansionOptions nodeInfo).1 = expansionOptions := by
  unfold grpcplugin.grpcclientstrategy.remoteOutcome grpcplugin.requestOf
    grpcplugin.roundContext at h
  simp only [grpcplugin.grpcclientstrategy.BestOptions, h]

theorem bestOptions_of_ok (g : grpcplugin.grpcclientstrategy σ NG Pod NI Node) (s : σ)
    (expansionOptions : Slice (expander.Option NG Pod)) (nodeInfo : GoMap String NI)
    (resp : grpcplugin.BestOptionsResponse Pod)
    (h : g.remoteOutcome s expansionOptions nodeInfo = Except.ok resp) :
    (g.BestOptions s expansionOptions nodeInfo).1 =
      if resp.Options.isNil = true then expansionOptions
      else if (grpcplugin.transformAndSanitizeOptionsFromGRPC resp.Options
          (grpcplugin.populateOptionsForGRPC expansionOptions GoMap.empty (Slice.mk [])).1).isNil
          = true then expansionOptions
      else grpcplugin.transformAndSanitizeOptionsFromGRPC resp.Options
          (grpcplugin.populateOptionsForGRPC expansionOptions GoMap.empty (Slice.mk [])).1 := by
  unfold grpcplugin.grpcclientstrategy.remoteOutcome grpcplugin.requestOf
    grpcplugin.roundContext at h
  simp only [grpcplugin.grpcclientstrategy.BestOptions, h]
  split <;> [rfl; skip]
  split <;> rfl

end bestOptions

/-! ## Lemmas shared by the properties of `BestOptions` -/

section shared

variable {σ NG Pod NI Node : Type} [cloudprovider.NodeGroup NG]
  [schedulerframework.NodeInfo NI Node]

theorem lookup_get?_some (expansionOptions : Slice (expander.Option NG Pod)) (k : String)
    (v : expander.Option NG Pod)
    (h : (grpcplugin.populateOptionsForGRPC expansionOptions GoMap.empty (Slice.mk [])).1.get? k
      = some v) :
    v ∈ expansionOptions.toList ∧ cloudprovider.NodeGroup.Id v.NodeGroup = k := by
  rw [populate_eq] at h
  rcases lookupAfter_get?_some _ _ _ _ h with h1 | h1
  · rw [GoMap.get?_empty] at h1
    cases h1
  · exact h1

theorem lookup_mem_keys (expansionOptions : Slice (expander.Option NG Pod)) (k : String) :
    k ∈ (grpcplugin.populateOptionsForGRPC expansionOptions GoMap.empty (Slice.mk [])).1.keys ↔
      k ∈ expansionOptions.toList.map (fun c => cloudprovider.NodeGroup.Id c.NodeGroup) := by
  rw [populate_eq, lookupAfter_mem_keys]
  simp [GoMap.keys, GoMap.empty]

theorem lookup_get?_none (expansionOptions : Slice (expander.Option NG Pod)) (k : String)
    (h : ∀ c ∈ expansionOptions.toList, cloudprovider.NodeGroup.Id c.NodeGroup ≠ k) :
    (grpcplugin.populateOptionsForGRPC expansionOptions GoMap.empty (Slice.mk [])).1.get? k
      = none := by
  cases hg : (grpcplugin.populateOptionsForGRPC expansionOptions GoMap.empty
      (Slice.mk [])).1.get? k with
  | none => rfl
  | some v =>
    obtain ⟨h1, h2⟩ := lookup_get?_some expansionOptions k v hg
    exact absurd h2 (h v h1)

theorem Slice.isNil_eq_true_iff {α : Type} (x : Slice α) : x.isNil = true ↔ x = Slice.nil := by
  cases x <;> simp [Slice.isNil]

theorem bestOptions_cases (g : grpcplugin.grpcclientstrategy σ NG Pod NI Node) (s : σ)
    (expansionOptions : Slice (expander.Option NG Pod)) (nodeInfo : GoMap String NI) :
    (g.BestOptions s expansionOptions nodeInfo).1 = expansionOptions ∨
    ∃ resp, g.remoteOutcome s expansionOptions nodeInfo = Except.ok resp ∧
      resp.Options ≠ Slice.nil ∧
      grpcplugin.transformAndSanitizeOptionsFromGRPC resp.Options
        (grpcplugin.populateOptionsForGRPC expansionOptions GoMap.empty (Slice.mk [])).1
        ≠ Slice.nil ∧
      (g.BestOptions s expansionOptions nodeInfo).1 =
        grpcplugin.transformAndSanitizeOptionsFromGRPC resp.Options
          (grpcplugin.populateOptionsForGRPC expansionOptions GoMap.empty (Slice.mk [])).1 := by
  cases hout : g.remoteOutcome s expansionOptions nodeInfo with
  | error err => exact Or.inl (bestOptions_of_error g s expansionOptions nodeInfo err hout)
  | ok resp =>
    rw [bestOptions_of_ok g s expansionOptions nodeInfo resp hout]
    by_cases h1 : resp.Options.isNil = true
    · rw [if_pos h1]
      exact Or.inl rfl
    · rw [if_neg h1]
      by_cases h2 : (grpcplugin.transformAndSanitizeOptionsFromGRPC resp.Options
          (grpcplugin.populateOptionsForGRPC expansionOptions GoMap.empty (Slice.mk [])).1).isNil
          = true
      · rw [if_pos h2]
        exact Or.inl rfl
      · rw [if_neg h2]
        exact Or.inr ⟨resp, rfl, fun h => h1 ((Slice.isNil_eq_true_iff _).2 h),
          fun h => h2 ((Slice.isNil_eq_true_iff _).2 h), rfl⟩

theorem bestOptions_mem (g : grpcplugin.grpcclientstrategy σ NG Pod NI Node) (s : σ)
    (expansionOptions : Slice (expander.Option NG Pod)) (nodeInfo : GoMap String NI)
    (c : expander.Option NG Pod) (hc : c ∈ (g.BestOptions s expansionOptions nodeInfo).1.toList) :
    c ∈ expansionOptions.toList := by
  rcases bestOptions_cases g s expansionOptions nodeInfo with h | ⟨resp, _, _, hne, heq⟩
  · rwa [h] at hc
  · rw [heq] at hc
    rcases sanitize_cases resp.Options
      (grpcplugin.populateOptionsForGRPC expansionOptions GoMap.empty (Slice.mk [])).1
      with h1 | h1
    · exact absurd h1 hne
    · obtain ⟨i, hi, rfl⟩ := List.mem_iff_get.1 hc
      have hlen := h1.length_eq
      have := (List.forall₂_iff_get.1 h1).2 i.1 i.2 (hlen ▸ i.2)
      exact (lookup_get?_some expansionOptions _ _ this).1

end shared

/-! ## Properties of `BestOptions` -/

section properties

variable {σ NG Pod NI Node : Type} [cloudprovider.NodeGroup NG]
  [schedulerframework.NodeInfo NI Node]

/-- C1. Whole-response rejection: when the remote call succeeds with an option list
in which at least one entry names an identifier that no offered candidate carries (a
list with an entry is present, not nil), `BestOptions` returns exactly the input slice,
whatever the other entries name. -/
theorem bestOptions_rejects_whole_response
    (g : grpcplugin.grpcclientstrategy σ NG Pod NI Node) (s : σ)
    (expansionOptions : Slice (expander.Option NG Pod)) (nodeInfo : GoMap String NI)
    (resp : grpcplugin.BestOptionsResponse Pod)
    (hok : g.remoteOutcome s expansionOptions nodeInfo = Except.ok resp)
    (hunknown : ∃ e ∈ resp.Options.toList, ∀ c ∈ expansionOptions.toList,
      cloudprovider.NodeGroup.Id c.NodeGroup ≠ e.NodeGroupId) :
    (g.BestOptions s expansionOptions nodeInfo).1 = expansionOptions := by
  obtain ⟨e, he, hne⟩ := hunknown
  have hnil := sanitize_missing resp.Options
    (grpcplugin.populateOptionsForGRPC expansionOptions GoMap.empty (Slice.mk [])).1
    ⟨e, he, lookup_get?_none expansionOptions e.NodeGroupId hne⟩
  rw [bestOptions_of_ok g s expansionOptions nodeInfo resp hok, hnil]
  simp [Slice.isNil]

/-- C1, on the scenario: the candidates `ng-a` (3 nodes) and `ng-b` (1 node) with the
response `[ng-c]` give back `[ng-a, ng-b]`. -/
theorem bestOptions_rejects_whole_response_witness :
    ((recordingStrategy (Except.ok ⟨Slice.mk [entry "ng-c"]⟩)).BestOptions [] scenario
      GoMap.empty).1 = Slice.mk [candidate "ng-a" 3, candidate "ng-b" 1] :=
  bestOptions_rejects_whole_response (recordingStrategy (Except.ok ⟨Slice.mk [entry "ng-c"]⟩))
    [] scenario GoMap.empty ⟨Slice.mk [entry "ng-c"]⟩ rfl
    ⟨entry "ng-c", by decide, by decide⟩

/-- C2. Round-trip on full success: when the identifiers of the candidates are pairwise
distinct and the identifiers of the response entries are a permutation of them, the
result has one element per response entry, in the order of the response, each being
the input candidate that carries the identifier of its entry; the result is a
permutation of the input. -/
theorem bestOptions_round_trip
    (g : grpcplugin.grpcclientstrategy σ NG Pod NI Node) (s : σ)
    (expansionOptions : Slice (expander.Option NG Pod)) (nodeInfo : GoMap String NI)
    (resp : grpcplugin.BestOptionsResponse Pod)
    (hok : g.remoteOutcome s expansionOptions nodeInfo = Except.ok resp)
    (hdistinct : (expansionOptions.toList.map
      (fun c => cloudprovider.NodeGroup.Id c.NodeGroup)).Nodup)
    (hperm : (resp.Options.toList.map (fun e => e.NodeGroupId)).Perm
      (expansionOptions.toList.map (fun c => cloudprovider.NodeGroup.Id c.NodeGroup))) :
    List.Forall₂
      (fun c e => c ∈ expansionOptions.toList ∧
        cloudprovider.NodeGroup.Id c.NodeGroup = e.NodeGroupId)
      (g.BestOptions s expansionOptions nodeInfo).1.toList resp.Options.toList ∧
    (g.BestOptions s expansionOptions nodeInfo).1.toList.Perm expansionOptions.toList := by
  -- the result, as a list, is the list the sanitizer builds
  have hfound : ∀ e ∈ resp.Options.toList, ∃ v,
      (grpcplugin.populateOptionsForGRPC expansionOptions GoMap.empty (Slice.mk [])).1.get?
        e.NodeGroupId = some v := by
    intro e he
    rw [← GoMap.mem_keys_iff, lookup_mem_keys]
    exact hperm.mem_iff.1 (List.mem_map_of_mem (fun e => e.NodeGroupId) he)
  obtain ⟨r, hr, hlist, hmk⟩ := sanitize_found resp.Options _ hfound
  have hres : (g.BestOptions s expansionOptions nodeInfo).1.toList = r := by
    by_cases hempty : resp.Options.toList = []
    · rw [hempty] at hr hperm
      have hr0 : r = [] := List.forall₂_nil_right_iff.1 hr
      have h0 : expansionOptions.toList = [] := by
        have := hperm.length_eq
        simp only [List.map_nil, List.length_nil, List.length_map] at this
        exact List.length_eq_zero.1 this.symm
      rcases bestOptions_cases g s expansionOptions nodeInfo with h | ⟨resp2, hok2, _, _, heq⟩
      · rw [h, h0, hr0]
      · rw [hok] at hok2
        cases hok2
        rw [heq, hlist]
    · have hnn : resp.Options.isNil = false := by
        cases hopt : resp.Options with
        | nil => rw [hopt] at hempty; exact absurd rfl hempty
        | mk x => rfl
      rw [bestOptions_of_ok g s expansionOptions nodeInfo resp hok, hmk hempty]
      rw [if_neg (by rw [hnn]; exact Bool.false_ne_true), if_neg (by simp [Slice.isNil])]
      rfl
  rw [hres]
  have hfor : List.Forall₂
      (fun c e => c ∈ expansionOptions.toList ∧
        cloudprovider.NodeGroup.Id c.NodeGroup = e.NodeGroupId) r resp.Options.toList := by
    refine List.Forall₂.imp ?_ hr
    intro c e hce
    exact lookup_get?_some expansionOptions e.NodeGroupId c hce
  refine ⟨hfor, ?_⟩
  have hmem : ∀ c ∈ r, c ∈ expansionOptions.toList := by
    intro c hc
    obtain ⟨i, rfl⟩ := List.mem_iff_get.1 hc
    exact ((List.forall₂_iff_get.1 hfor).2 i.1 i.2 (hfor.length_eq ▸ i.2)).1
  have hmap : ∀ (xs : List (expander.Option NG Pod)) (ys : List (grpcplugin.Option Pod)),
      List.Forall₂ (fun c e => c ∈ expansionOptions.toList ∧
        cloudprovider.NodeGroup.Id c.NodeGroup = e.NodeGroupId) xs ys →
      xs.map (fun c => cloudprovider.NodeGroup.Id c.NodeGroup) =
        ys.map (fun e => e.NodeGroupId) := by
    intro xs ys hxy
    induction hxy with
    | nil => rfl
    | cons h _ ih => simp [List.map_cons, h.2, ih]
  have hids := hmap r resp.Options.toList hfor
  have hrperm : (r.map (fun c => cloudprovider.NodeGroup.Id c.NodeGroup)).Perm
      (expansionOptions.toList.map (fun c => cloudprovider.NodeGroup.Id c.NodeGroup)) :=
    hids ▸ hperm
  have hrnodup : r.Nodup := List.Nodup.of_map _ (hrperm.nodup_iff.2 hdistinct)
  refine (List.perm_ext_iff_of_nodup hrnodup (List.Nodup.of_map _ hdistinct)).2 (fun a => ?_)
  refine ⟨hmem a, fun ha => ?_⟩
  have h1 : cloudprovider.NodeGroup.Id a.NodeGroup ∈
      r.map (fun c => cloudprovider.NodeGroup.Id c.NodeGroup) :=
    hrperm.mem_iff.2 (List.mem_map_of_mem (fun c => cloudprovider.NodeGroup.Id c.NodeGroup) ha)
  obtain ⟨b, hb, hbid⟩ := List.mem_map.1 h1
  have : b = a := List.inj_on_of_nodup_map hdistinct (hmem b hb) ha hbid
  exact this ▸ hb

/-- C2, on the scenario: the response `[ng-b, ng-a]` gives the two candidates in that
order. -/
theorem bestOptions_round_trip_witness :
    List.Forall₂
      (fun c e => c ∈ scenario.toList ∧ cloudprovider.NodeGroup.Id c.NodeGroup = e.NodeGroupId)
      ((recordingStrategy (Except.ok ⟨Slice.mk [entry "ng-b", entry "ng-a"]⟩)).BestOptions []
        scenario GoMap.empty).1.toList
      [entry "ng-b", entry "ng-a"] ∧
    ((recordingStrategy (Except.ok ⟨Slice.mk [entry "ng-b", entry "ng-a"]⟩)).BestOptions []
        scenario GoMap.empty).1.toList.Perm scenario.toList :=
  bestOptions_round_trip (recordingStrategy (Except.ok ⟨Slice.mk [entry "ng-b", entry "ng-a"]⟩))
    [] scenario GoMap.empty ⟨Slice.mk [entry "ng-b", entry "ng-a"]⟩ rfl (by decide)
    (List.Perm.swap _ _ _)

/-- C3, as the code behaves. Empty selection: when the remote call succeeds with an
option list that is present (not nil) but has zero entries, `BestOptions` returns the
input slice unchanged, exactly as for an absent list; the result is empty only when the
input is. -/
theorem bestOptions_empty_selection_passes_through
    (g : grpcplugin.grpcclientstrategy σ NG Pod NI Node) (s : σ)
    (expansionOptions : Slice (expander.Option NG Pod)) (nodeInfo : GoMap String NI)
    (resp : grpcplugin.BestOptionsResponse Pod)
    (hok : g.remoteOutcome s expansionOptions nodeInfo = Except.ok resp)
    (hpresent : resp.Options ≠ Slice.nil) (hzero : resp.Options.len = 0) :
    (g.BestOptions s expansionOptions nodeInfo).1 = expansionOptions := by
  have hmk : resp.Options = Slice.mk [] := by
    cases hopt : resp.Options with
    | nil => exact absurd hopt hpresent
    | mk x =>
      rw [hopt] at hzero
      have hx : x = [] := List.length_eq_zero.1 hzero
      rw [hx]
  rw [bestOptions_of_ok g s expansionOptions nodeInfo resp hok, hmk]
  rfl

/-- C3, on the scenario: the present, empty response gives back both candidates. -/
theorem bestOptions_empty_selection_passes_through_witness :
    ((recordingStrategy (Except.ok ⟨Slice.mk []⟩)).BestOptions [] scenario GoMap.empty).1
      = scenario :=
  bestOptions_empty_selection_passes_through (recordingStrategy (Except.ok ⟨Slice.mk []⟩))
    [] scenario GoMap.empty ⟨Slice.mk []⟩ rfl (by decide) rfl

/-- C3 as stated fails: on the scenario, with the remote call succeeding with the
present option list `[]` of zero entries, the result of `BestOptions` is not an empty
sequence; it is the original input of two candidates. -/
theorem bestOptions_empty_selection_counterexample :
    (Slice.mk ([] : List (grpcplugin.Option String))) ≠ Slice.nil ∧
    (Slice.mk ([] : List (grpcplugin.Option String))).len = 0 ∧
    ((recordingStrategy (Except.ok ⟨Slice.mk []⟩)).remoteOutcome [] scenario GoMap.empty)
      = Except.ok ⟨Slice.mk []⟩ ∧
    ((recordingStrategy (Except.ok ⟨Slice.mk []⟩)).BestOptions [] scenario GoMap.empty).1.len
      ≠ 0 ∧
    ((recordingStrategy (Except.ok ⟨Slice.mk []⟩)).BestOptions [] scenario GoMap.empty).1
      = scenario := by
  refine ⟨by decide, rfl, rfl, by decide, by decide⟩

/-- C4. Degrade on remote failure: when the remote call returns an error, or succeeds
with an absent (nil) option list, `BestOptions` returns the input slice unchanged; its
result is a slice, it has no error to report. -/
theorem bestOptions_degrades_on_failure
    (g : grpcplugin.grpcclientstrategy σ NG Pod NI Node) (s : σ)
    (expansionOptions : Slice (expander.Option NG Pod)) (nodeInfo : GoMap String NI)
    (hfail : (∃ err, g.remoteOutcome s expansionOptions nodeInfo = Except.error err) ∨
      (∃ resp, g.remoteOutcome s expansionOptions nodeInfo = Except.ok resp ∧
        resp.Options = Slice.nil)) :
    (g.BestOptions s expansionOptions nodeInfo).1 = expansionOptions := by
  rcases hfail with ⟨err, herr⟩ | ⟨resp, hok, hnil⟩
  · exact bestOptions_of_error g s expansionOptions nodeInfo err herr
  · rw [bestOptions_of_ok g s expansionOptions nodeInfo resp hok, hnil]
    rfl

/-- C4, on the scenario: a deadline error, and a success with a nil option list, both
give back the two candidates. -/
theorem bestOptions_degrades_on_failure_witness :
    ((recordingStrategy (Except.error "context deadline exceeded")).BestOptions [] scenario
      GoMap.empty).1 = scenario ∧
    ((recordingStrategy (Except.ok ⟨Slice.nil⟩)).BestOptions [] scenario GoMap.empty).1
      = scenario :=
  ⟨bestOptions_degrades_on_failure (recordingStrategy (Except.error "context deadline exceeded"))
      [] scenario GoMap.empty (Or.inl ⟨"context deadline exceeded", rfl⟩),
   bestOptions_degrades_on_failure (recordingStrategy (Except.ok ⟨Slice.nil⟩))
      [] scenario GoMap.empty (Or.inr ⟨⟨Slice.nil⟩, rfl, rfl⟩)⟩

/-- C5. Only two outcomes, never an unoffered candidate: whatever the remote call gives,
the result of `BestOptions` is the input slice itself, or the call succeeded and the
result has one element per response entry, each being the candidate that the reverse
lookup holds under the identifier of its entry; and every element of the result is an
element of the input. -/
theorem bestOptions_two_outcomes
    (g : grpcplugin.grpcclientstrategy σ NG Pod NI Node) (s : σ)
    (expansionOptions : Slice (expander.Option NG Pod)) (nodeInfo : GoMap String NI) :
    ((g.BestOptions s expansionOptions nodeInfo).1 = expansionOptions ∨
      ∃ resp, g.remoteOutcome s expansionOptions nodeInfo = Except.ok resp ∧
        List.Forall₂
          (fun c e =>
            (grpcplugin.populateOptionsForGRPC expansionOptions GoMap.empty
              (Slice.mk [])).1.get? e.NodeGroupId = some c)
          (g.BestOptions s expansionOptions nodeInfo).1.toList resp.Options.toList) ∧
    ∀ c ∈ (g.BestOptions s expansionOptions nodeInfo).1.toList, c ∈ expansionOptions.toList := by
  refine ⟨?_, bestOptions_mem g s expansionOptions nodeInfo⟩
  rcases bestOptions_cases g s expansionOptions nodeInfo with h | ⟨resp, hok, _, hne, heq⟩
  · exact Or.inl h
  · refine Or.inr ⟨resp, hok, ?_⟩
    rw [heq]
    rcases sanitize_cases resp.Options
      (grpcplugin.populateOptionsForGRPC expansionOptions GoMap.empty (Slice.mk [])).1
      with h1 | h1
    · exact absurd h1 hne
    · exact h1

/-- C8. Identity on empty input: with no candidates (a nil or an empty slice),
`BestOptions` returns a slice of length zero, whatever the remote call gives. -/
theorem bestOptions_identity_on_empty
    (g : grpcplugin.grpcclientstrategy σ NG Pod NI Node) (s : σ)
    (expansionOptions : Slice (expander.Option NG Pod)) (nodeInfo : GoMap String NI)
    (hempty : expansionOptions.len = 0) :
    (g.BestOptions s expansionOptions nodeInfo).1.len = 0 := by
  have h0 : expansionOptions.toList = [] := List.length_eq_zero.1 hempty
  have hall := bestOptions_mem g s expansionOptions nodeInfo
  rw [h0] at hall
  exact List.length_eq_zero.2 (List.eq_nil_iff_forall_not_mem.2 (fun c hc => by
    have := hall c hc
    cases this))

/-- C8, on four remote outcomes for an empty candidate slice, and on an error for
the nil slice. -/
theorem bestOptions_identity_on_empty_witness :
    ((recordingStrategy (Except.error "unavailable")).BestOptions [] (Slice.mk [])
      GoMap.empty).1.len = 0 ∧
    ((recordingStrategy (Except.ok ⟨Slice.nil⟩)).BestOptions [] (Slice.mk [])
      GoMap.empty).1.len = 0 ∧
    ((recordingStrategy (Except.ok ⟨Slice.mk []⟩)).BestOptions [] (Slice.mk [])
      GoMap.empty).1.len = 0 ∧
    ((recordingStrategy (Except.ok ⟨Slice.mk [entry "ng-x", entry "ng-y"]⟩)).BestOptions []
      (Slice.mk []) GoMap.empty).1.len = 0 ∧
    ((recordingStrategy (Except.error "unavailable")).BestOptions [] Slice.nil
      GoMap.empty).1.len = 0 :=
  ⟨bestOptions_identity_on_empty _ _ _ _ rfl, bestOptions_identity_on_empty _ _ _ _ rfl,
   bestOptions_identity_on_empty _ _ _ _ rfl, bestOptions_identity_on_empty _ _ _ _ rfl,
   bestOptions_identity_on_empty _ _ _ _ rfl⟩

end properties

/-! ## Properties of the sanitizer -/

section sanitizerProperties

variable {NG Pod : Type}

/-- C6. Sanitizer ordering: for a response with at least one entry and a reverse lookup
in which every response identifier is a key, `transformAndSanitizeOptionsFromGRPC`
returns a non-nil slice of the length of the response whose `i`-th element is the
candidate that the lookup holds under the `i`-th response identifier. -/
theorem sanitizer_keeps_response_order
    (resp : Slice (grpcplugin.Option Pod)) (m : GoMap String (expander.Option NG Pod))
    (hne : resp.len ≠ 0) (hkeys : ∀ e ∈ resp.toList, e.NodeGroupId ∈ m.keys) :
    grpcplugin.transformAndSanitizeOptionsFromGRPC resp m ≠ Slice.nil ∧
    (grpcplugin.transformAndSanitizeOptionsFromGRPC resp m).len = resp.len ∧
    ∀ (i : Nat) (hi : i < resp.toList.length),
      (grpcplugin.transformAndSanitizeOptionsFromGRPC resp m).toList[i]? =
        m.get? (resp.toList[i]).NodeGroupId := by
  have hfound : ∀ e ∈ resp.toList, ∃ v, m.get? e.NodeGroupId = some v :=
    fun e he => (GoMap.mem_keys_iff m _).1 (hkeys e he)
  obtain ⟨r, hr, _, hmk⟩ := sanitize_found resp m hfound
  have hmk2 := hmk (fun h => hne (by rw [Slice.len, h]; rfl))
  rw [hmk2]
  refine ⟨fun h => (by cases h), hr.length_eq, fun i hi => ?_⟩
  have hir : i < r.length := hr.length_eq ▸ hi
  have hget := (List.forall₂_iff_get.1 hr).2 i hir hi
  simp only [List.get_eq_getElem] at hget
  rw [hget]
  exact List.getElem?_eq_getElem hir

/-- C6, on the scenario: with the lookup built from `ng-a` (3 nodes) and `ng-b`
(1 node), the response `[ng-b]` gives `[ng-b with 1 node]`. -/
theorem sanitizer_keeps_response_order_witness :
    (grpcplugin.transformAndSanitizeOptionsFromGRPC (Slice.mk [entry "ng-b"])
        (grpcplugin.populateOptionsForGRPC scenario GoMap.empty (Slice.mk [])).1).len = 1 ∧
    grpcplugin.transformAndSanitizeOptionsFromGRPC (Slice.mk [entry "ng-b"])
        (grpcplugin.populateOptionsForGRPC scenario GoMap.empty (Slice.mk [])).1 =
      Slice.mk [candidate "ng-b" 1] :=
  ⟨(sanitizer_keeps_response_order (Slice.mk [entry "ng-b"])
      (grpcplugin.populateOptionsForGRPC scenario GoMap.empty (Slice.mk [])).1
      (by decide) (by decide)).2.1, by decide⟩

/-- C7, as the code behaves. The sanitizer returns nil exactly when the response has
zero entries or some response identifier is missing from the reverse lookup: a response
of zero entries gives the same nil as a rejected response. -/
theorem sanitizer_nil_iff
    (resp : Slice (grpcplugin.Option Pod)) (m : GoMap String (expander.Option NG Pod)) :
    grpcplugin.transformAndSanitizeOptionsFromGRPC resp m = Slice.nil ↔
      resp.len = 0 ∨ ∃ e ∈ resp.toList, m.get? e.NodeGroupId = none := by
  constructor
  · intro hnil
    by_cases hzero : resp.len = 0
    · exact Or.inl hzero
    · refine Or.inr ?_
      by_contra hall
      have hfound : ∀ e ∈ resp.toList, ∃ v, m.get? e.NodeGroupId = some v := by
        intro e he
        cases hg : m.get? e.NodeGroupId with
        | none => exact absurd ⟨e, he, hg⟩ hall
        | some v => exact ⟨v, rfl⟩
      obtain ⟨r, _, _, hmk⟩ := sanitize_found resp m hfound
      have hmk2 := hmk (fun h => hzero (by rw [Slice.len, h]; rfl))
      rw [hmk2] at hnil
      cases hnil
  · rintro (hzero | hmiss)
    · have h0 : resp.toList = [] := List.length_eq_zero.1 hzero
      unfold grpcplugin.transformAndSanitizeOptionsFromGRPC
      rw [h0]
      rfl
    · exact sanitize_missing resp m hmiss

/-- C7 as stated fails: with the lookup built from the scenario and the present
response of zero entries, no response identifier is missing from the lookup and yet the
sanitizer returns nil, the rejection signal, not an empty non-nil slice. -/
theorem sanitizer_nil_counterexample :
    ¬ (grpcplugin.transformAndSanitizeOptionsFromGRPC (Slice.mk [])
          (grpcplugin.populateOptionsForGRPC scenario GoMap.empty (Slice.mk [])).1 = Slice.nil ↔
        ∃ e ∈ (Slice.mk ([] : List (grpcplugin.Option String))).toList,
          (grpcplugin.populateOptionsForGRPC scenario GoMap.empty (Slice.mk [])).1.get?
            e.NodeGroupId = none) := by
  intro h
  obtain ⟨e, he, _⟩ := h.1 rfl
  cases he

end sanitizerProperties

/-! ## Properties of the marshaller -/

section marshallerProperties

variable {NG Pod : Type} [cloudprovider.NodeGroup NG]

/-- C9. Marshaller output: started on an empty map and an empty slice,
`populateOptionsForGRPC` gives a wire list with one entry per candidate, in input order,
the entry of a candidate carrying its identifier, its debug text and its pods; no
candidates give the empty wire list; and when the identifiers of the candidates are
pairwise distinct, the identifier of every candidate occurs once in the wire list and
once among the keys of the reverse lookup, where it is mapped to that candidate. -/
theorem populateOptions_marshals_every_candidate
    (expansionOptions : Slice (expander.Option NG Pod)) :
    List.Forall₂
      (fun c w => w.NodeGroupId = cloudprovider.NodeGroup.Id c.NodeGroup ∧
        w.Debug = c.Debug ∧ w.Pod = c.Pods)
      expansionOptions.toList
      (grpcplugin.populateOptionsForGRPC expansionOptions GoMap.empty (Slice.mk [])).2.toList ∧
    (grpcplugin.populateOptionsForGRPC expansionOptions GoMap.empty (Slice.mk [])).2.len =
      expansionOptions.len ∧
    (expansionOptions.len = 0 →
      (grpcplugin.populateOptionsForGRPC expansionOptions GoMap.empty (Slice.mk [])).2 =
        Slice.mk []) ∧
    ((expansionOptions.toList.map (fun c => cloudprovider.NodeGroup.Id c.NodeGroup)).Nodup →
      ∀ c ∈ expansionOptions.toList,
        ((grpcplugin.populateOptionsForGRPC expansionOptions GoMap.empty
          (Slice.mk [])).2.toList.map (fun w => w.NodeGroupId)).count
            (cloudprovider.NodeGroup.Id c.NodeGroup) = 1 ∧
        (grpcplugin.populateOptionsForGRPC expansionOptions GoMap.empty
          (Slice.mk [])).1.keys.count (cloudprovider.NodeGroup.Id c.NodeGroup) = 1 ∧
        (grpcplugin.populateOptionsForGRPC expansionOptions GoMap.empty
          (Slice.mk [])).1.get? (cloudprovider.NodeGroup.Id c.NodeGroup) = some c) := by
  have hwire : (grpcplugin.populateOptionsForGRPC expansionOptions GoMap.empty
      (Slice.mk [])).2.toList = expansionOptions.toList.map grpcplugin.wireOf := by
    rw [populate_eq]
    rfl
  have hids : (expansionOptions.toList.map grpcplugin.wireOf).map (fun w => w.NodeGroupId) =
      expansionOptions.toList.map (fun c => cloudprovider.NodeGroup.Id c.NodeGroup) := by
    rw [List.map_map]
    rfl
  refine ⟨?_, ?_, ?_, ?_⟩
  · rw [hwire, List.forall₂_map_right_iff]
    exact List.forall₂_same.2 (fun c _ => ⟨rfl, rfl, rfl⟩)
  · rw [Slice.len, hwire, List.length_map]
    rfl
  · intro hzero
    have h0 : expansionOptions.toList = [] := List.length_eq_zero.1 hzero
    rw [populate_eq, h0]
    rfl
  · intro hdistinct c hc
    have hmem : cloudprovider.NodeGroup.Id c.NodeGroup ∈
        expansionOptions.toList.map (fun c => cloudprovider.NodeGroup.Id c.NodeGroup) :=
      List.mem_map_of_mem (fun c => cloudprovider.NodeGroup.Id c.NodeGroup) hc
    refine ⟨?_, ?_, ?_⟩
    · rw [hwire, hids]
      exact List.count_eq_one_of_mem hdistinct hmem
    · exact List.count_eq_one_of_mem
        (grpcplugin.populateOptionsForGRPC expansionOptions GoMap.empty (Slice.mk [])).1.nodupKeys
        ((lookup_mem_keys expansionOptions _).2 hmem)
    · rw [populate_eq]
      exact lookupAfter_get?_of_nodup _ _ hdistinct c hc

/-- C9, on the scenario: the wire list is `[ng-a, ng-b]`, and `ng-b` occurs once in it,
once among the keys of the lookup, and is mapped to the candidate `ng-b` with 1 node. -/
theorem populateOptions_marshals_every_candidate_witness :
    (grpcplugin.populateOptionsForGRPC scenario GoMap.empty (Slice.mk [])).2.toList.map
        (fun w => w.NodeGroupId) = ["ng-a", "ng-b"] ∧
    (((grpcplugin.populateOptionsForGRPC scenario GoMap.empty
          (Slice.mk [])).2.toList.map (fun w => w.NodeGroupId)).count "ng-b" = 1 ∧
      (grpcplugin.populateOptionsForGRPC scenario GoMap.empty
          (Slice.mk [])).1.keys.count "ng-b" = 1 ∧
      (grpcplugin.populateOptionsForGRPC scenario GoMap.empty
          (Slice.mk [])).1.get? "ng-b" = some (candidate "ng-b" 1)) :=
  ⟨by decide,
   (populateOptions_marshals_every_candidate scenario).2.2.2 (by decide)
      (candidate "ng-b" 1) (by decide)⟩

/-- C10. ReverseLookup invariant: for every candidate slice, with or without repeated
identifiers, after `populateOptionsForGRPC` has run on an empty map and an empty slice
the keys of the reverse lookup are exactly the identifiers that occur in the wire list,
and the candidate stored under a key has that key as the identifier of its node group. -/
theorem populateOptions_lookup_invariant
    (expansionOptions : Slice (expander.Option NG Pod)) :
    (∀ k : String,
      k ∈ (grpcplugin.populateOptionsForGRPC expansionOptions GoMap.empty (Slice.mk [])).1.keys ↔
      k ∈ (grpcplugin.populateOptionsForGRPC expansionOptions GoMap.empty
        (Slice.mk [])).2.toList.map (fun w => w.NodeGroupId)) ∧
    (∀ (k : String) (v : expander.Option NG Pod),
      (grpcplugin.populateOptionsForGRPC expansionOptions GoMap.empty (Slice.mk [])).1.get? k
        = some v → cloudprovider.NodeGroup.Id v.NodeGroup = k) := by
  refine ⟨fun k => ?_, fun k v h => (lookup_get?_some expansionOptions k v h).2⟩
  rw [lookup_mem_keys]
  have hwire : (grpcplugin.populateOptionsForGRPC expansionOptions GoMap.empty
      (Slice.mk [])).2.toList = expansionOptions.toList.map grpcplugin.wireOf := by
    rw [populate_eq]
    rfl
  rw [hwire, List.map_map]
  rfl

/-- C10, on three candidates of which two share the identifier `ng-a`: the keys of the
lookup are `ng-a` and `ng-b`, the identifiers sent are `ng-a`, `ng-b`, `ng-a`, and the
candidate stored under `ng-a` carries the identifier `ng-a`. -/
theorem populateOptions_lookup_invariant_witness :
    (grpcplugin.populateOptionsForGRPC
        (Slice.mk [candidate "ng-a" 3, candidate "ng-b" 1, candidate "ng-a" 7])
        GoMap.empty (Slice.mk [])).1.keys = ["ng-a", "ng-b"] ∧
    (grpcplugin.populateOptionsForGRPC
        (Slice.mk [candidate "ng-a" 3, candidate "ng-b" 1, candidate "ng-a" 7])
        GoMap.empty (Slice.mk [])).2.toList.map (fun w => w.NodeGroupId)
      = ["ng-a", "ng-b", "ng-a"] ∧
    cloudprovider.NodeGroup.Id (candidate "ng-a" 7).NodeGroup = "ng-a" :=
  ⟨by decide, by decide,
   (populateOptions_lookup_invariant
      (Slice.mk [candidate "ng-a" 3, candidate "ng-b" 1, candidate "ng-a" 7])).2
      "ng-a" (candidate "ng-a" 7) (by decide)⟩

end marshallerProperties

/-! ## Further properties of the marshaller and of `BestOptions` -/

section wireCount

variable {NG Pod : Type} [cloudprovider.NodeGroup NG]

theorem int32_of_fits (n : Int) (hlo : -2 ^ 31 ≤ n) (hhi : n < 2 ^ 31) : int32 n = n := by
  unfold int32
  have h1 : (0 : Int) ≤ n + 2 ^ 31 := by omega
  have h2 : n + 2 ^ 31 < 2 ^ 32 := by omega
  rw [Int.emod_eq_of_lt h1 h2]
  omega

/-- C14, as the code behaves. Node count on the wire: the wire option of every candidate
carries `int32(NodeCount)`, which is the node count of the candidate whenever that count
fits the signed 32-bit field of the wire, that is lies between `-2^31` and `2^31 - 1`. -/
theorem populateOptions_node_count_when_it_fits
    (expansionOptions : Slice (expander.Option NG Pod)) :
    List.Forall₂
      (fun c w => w.NodeCount = int32 c.NodeCount ∧
        (-2 ^ 31 ≤ c.NodeCount → c.NodeCount < 2 ^ 31 → w.NodeCount = c.NodeCount))
      expansionOptions.toList
      (grpcplugin.populateOptionsForGRPC expansionOptions GoMap.empty
        (Slice.mk [])).2.toList := by
  have hwire : (grpcplugin.populateOptionsForGRPC expansionOptions GoMap.empty
      (Slice.mk [])).2.toList = expansionOptions.toList.map grpcplugin.wireOf := by
    rw [populate_eq]
    rfl
  rw [hwire, List.forall₂_map_right_iff]
  exact List.forall₂_same.2 (fun c _ => ⟨rfl, fun hlo hhi => int32_of_fits c.NodeCount hlo hhi⟩)

/-- C14, on the scenario: the wire options carry the node counts 3 and 1. -/
theorem populateOptions_node_count_when_it_fits_witness :
    (grpcplugin.populateOptionsForGRPC scenario GoMap.empty (Slice.mk [])).2.toList.map
        (fun w => w.NodeCount) = [3, 1] ∧
    List.Forall₂
      (fun c w => w.NodeCount = int32 c.NodeCount ∧
        (-2 ^ 31 ≤ c.NodeCount → c.NodeCount < 2 ^ 31 → w.NodeCount = c.NodeCount))
      scenario.toList
      (grpcplugin.populateOptionsForGRPC scenario GoMap.empty (Slice.mk [])).2.toList :=
  ⟨by decide, populateOptions_node_count_when_it_fits scenario⟩

/-- C14 as stated fails: for the single candidate `ng-a` with the node count `2^31`,
the wire option carries the node count `-2^31`, not `2^31`. -/
theorem populateOptions_node_count_counterexample :
    (grpcplugin.populateOptionsForGRPC (Slice.mk [candidate "ng-a" (2 ^ 31)]) GoMap.empty
        (Slice.mk [])).2.toList.map (fun w => w.NodeCount) = [-2 ^ 31] ∧
    (grpcplugin.populateOptionsForGRPC (Slice.mk [candidate "ng-a" (2 ^ 31)]) GoMap.empty
        (Slice.mk [])).2.toList.map (fun w => w.NodeCount) ≠
      (Slice.mk [candidate "ng-a" (2 ^ 31)]).toList.map (fun c => c.NodeCount) := by
  refine ⟨by decide, by decide⟩

end wireCount

section substitute

variable {σ NG Pod NI Node : Type} [cloudprovider.NodeGroup NG]
  [schedulerframework.NodeInfo NI Node]

/-- C15. The substitute strategy is never consulted: two strategies with the same remote
client give the same result (and leave the same state) whatever their `fallbackStrategy`
fields are; and on every failure path, an error of the call, a nil option list or a
response that the sanitizer rejects, the result is the input slice itself. -/
theorem bestOptions_ignores_fallbackStrategy
    (g₁ g₂ : grpcplugin.grpcclientstrategy σ NG Pod NI Node) (s : σ)
    (expansionOptions : Slice (expander.Option NG Pod)) (nodeInfo : GoMap String NI)
    (hclient : g₁.grpcClient = g₂.grpcClient) :
    g₁.BestOptions s expansionOptions nodeInfo = g₂.BestOptions s expansionOptions nodeInfo ∧
    (((∃ err, g₁.remoteOutcome s expansionOptions nodeInfo = Except.error err) ∨
      (∃ resp, g₁.remoteOutcome s expansionOptions nodeInfo = Except.ok resp ∧
        (resp.Options = Slice.nil ∨
          grpcplugin.transformAndSanitizeOptionsFromGRPC resp.Options
            (grpcplugin.populateOptionsForGRPC expansionOptions GoMap.empty (Slice.mk [])).1
              = Slice.nil))) →
      (g₁.BestOptions s expansionOptions nodeInfo).1 = expansionOptions ∧
      (g₂.BestOptions s expansionOptions nodeInfo).1 = expansionOptions) := by
  have heq : g₁.BestOptions s expansionOptions nodeInfo =
      g₂.BestOptions s expansionOptions nodeInfo := by
    simp only [grpcplugin.grpcclientstrategy.BestOptions, hclient]
  refine ⟨heq, fun hfail => ?_⟩
  have h1 : (g₁.BestOptions s expansionOptions nodeInfo).1 = expansionOptions := by
    rcases hfail with ⟨err, herr⟩ | ⟨resp, hok, hnil | hrej⟩
    · exact bestOptions_of_error g₁ s expansionOptions nodeInfo err herr
    · rw [bestOptions_of_ok g₁ s expansionOptions nodeInfo resp hok, hnil]
      rfl
    · rw [bestOptions_of_ok g₁ s expansionOptions nodeInfo resp hok, hrej]
      by_cases h : resp.Options.isNil = true
      · rw [if_pos h]
      · rw [if_neg h]
        rfl
  exact ⟨h1, heq ▸ h1⟩

/-- C15, on the scenario with a failing call: a strategy whose substitute selects nothing
and a strategy whose substitute selects the first candidate, which differ on the
scenario, both return the two candidates. -/
theorem bestOptions_ignores_fallbackStrategy_witness :
    (recordingStrategy (Except.error "unavailable")).fallbackStrategy.BestOption scenario
        twoNodes ≠
      (firstPickStrategy (Except.error "unavailable")).fallbackStrategy.BestOption scenario
        twoNodes ∧
    (recordingStrategy (Except.error "unavailable")).BestOptions [] scenario twoNodes =
      (firstPickStrategy (Except.error "unavailable")).BestOptions [] scenario twoNodes ∧
    ((recordingStrategy (Except.error "unavailable")).BestOptions [] scenario twoNodes).1
      = scenario ∧
    ((firstPickStrategy (Except.error "unavailable")).BestOptions [] scenario twoNodes).1
      = scenario :=
  ⟨by decide,
   (bestOptions_ignores_fallbackStrategy (recordingStrategy (Except.error "unavailable"))
      (firstPickStrategy (Except.error "unavailable")) [] scenario twoNodes rfl).1,
   (bestOptions_ignores_fallbackStrategy (recordingStrategy (Except.error "unavailable"))
      (firstPickStrategy (Except.error "unavailable")) [] scenario twoNodes rfl).2
      (Or.inl ⟨"unavailable", rfl⟩)⟩

/-- C12. Single attempt: run on the remote client with a log of its calls, one invocation
of `BestOptions` adds exactly one request to the log, the request made of the wire option
list and the wire node map of this round, and the outside world is left in the state
that this one call leaves it in, whether the call fails, succeeds, or succeeds with a
response that is rejected; the result is the one obtained without the log. -/
theorem bestOptions_calls_remote_once
    (g : grpcplugin.grpcclientstrategy σ NG Pod NI Node) (s : σ)
    (log : List (grpcplugin.BestOptionsRequest Pod Node))
    (expansionOptions : Slice (expander.Option NG Pod)) (nodeInfo : GoMap String NI) :
    ((grpcplugin.grpcclientstrategy.mk g.fallbackStrategy g.grpcClient.recorded).BestOptions
        (s, log) expansionOptions nodeInfo).2 =
      ((g.grpcClient.BestOptions s grpcplugin.roundContext
          (grpcplugin.requestOf expansionOptions nodeInfo)).2,
        log ++ [grpcplugin.requestOf expansionOptions nodeInfo]) ∧
    ((grpcplugin.grpcclientstrategy.mk g.fallbackStrategy g.grpcClient.recorded).BestOptions
        (s, log) expansionOptions nodeInfo).1 =
      (g.BestOptions s expansionOptions nodeInfo).1 ∧
    (g.BestOptions s expansionOptions nodeInfo).2 =
      (g.grpcClient.BestOptions s grpcplugin.roundContext
        (grpcplugin.requestOf expansionOptions nodeInfo)).2 := by
  have hstate : ∀ {τ : Type} (h : grpcplugin.grpcclientstrategy τ NG Pod NI Node) (t : τ),
      (h.BestOptions t expansionOptions nodeInfo).2 =
        (h.grpcClient.BestOptions t grpcplugin.roundContext
          (grpcplugin.requestOf expansionOptions nodeInfo)).2 := by
    intro τ h t
    unfold grpcplugin.grpcclientstrategy.BestOptions grpcplugin.requestOf
      grpcplugin.roundContext
    simp only
    split
    · rfl
    · split
      · rfl
      · split <;> rfl
  refine ⟨?_, ?_, hstate g s⟩
  · rw [hstate]
    rfl
  · cases hout : g.remoteOutcome s expansionOptions nodeInfo with
    | error err =>
      rw [bestOptions_of_error g s expansionOptions nodeInfo err hout]
      exact bestOptions_of_error _ _ expansionOptions nodeInfo err hout
    | ok resp =>
      rw [bestOptions_of_ok g s expansionOptions nodeInfo resp hout]
      exact bestOptions_of_ok _ _ expansionOptions nodeInfo resp hout

end substitute

/-! ## Lemmas on the node map -/

section nodeMap

variable {NI Node : Type} [schedulerframework.NodeInfo NI Node]

theorem GoMap.mem_entries_of_get? {κ ν : Type} [DecidableEq κ] (m : GoMap κ ν) (k : κ) (v : ν)
    (h : m.get? k = some v) : (k, v) ∈ m.entries := by
  unfold GoMap.get? at h
  cases hf : m.entries.find? (fun e => decide (e.1 = k)) with
  | none => rw [hf] at h; cases h
  | some e =>
    rw [hf] at h
    have hk : e.1 = k := by simpa using List.find?_some hf
    have hv : e.2 = v := by simpa using h
    have hmem := List.mem_of_find?_eq_some hf
    rw [← hk, ← hv]
    exact hmem

theorem nodeFold_mem_keys (l : List (String × NI)) (m : GoMap String Node) (k : String) :
    k ∈ (l.foldl (fun acc e => acc.set e.1 (schedulerframework.NodeInfo.Node e.2)) m).keys ↔
      k ∈ m.keys ∨ k ∈ l.map Prod.fst := by
  induction l generalizing m with
  | nil => simp
  | cons e rest ih =>
    rw [List.foldl_cons, ih, GoMap.mem_keys_set, List.map_cons, List.mem_cons]
    tauto

theorem nodeFold_get?_of_not_mem (l : List (String × NI)) (m : GoMap String Node) (k : String)
    (hk : k ∉ l.map Prod.fst) :
    (l.foldl (fun acc e => acc.set e.1 (schedulerframework.NodeInfo.Node e.2)) m).get? k =
      m.get? k := by
  induction l generalizing m with
  | nil => rfl
  | cons e rest ih =>
    rw [List.map_cons, List.mem_cons, not_or] at hk
    rw [List.foldl_cons, ih _ hk.2, GoMap.get?_set_ne _ _ _ _ hk.1]

theorem nodeFold_get?_of_nodup (l : List (String × NI)) (m : GoMap String Node)
    (hl : (l.map Prod.fst).Nodup) (e : String × NI) (he : e ∈ l) :
    (l.foldl (fun acc e => acc.set e.1 (schedulerframework.NodeInfo.Node e.2)) m).get? e.1 =
      some (schedulerframework.NodeInfo.Node e.2) := by
  induction l generalizing m with
  | nil => cases he
  | cons d rest ih =>
    rw [List.map_cons, List.nodup_cons] at hl
    rw [List.foldl_cons]
    rcases List.mem_cons.1 he with h | h
    · subst h
      rw [nodeFold_get?_of_not_mem _ _ _ hl.1, GoMap.get?_set_self]
    · exact ih _ hl.2 h

end nodeMap

/-! ## Properties of the node map -/

section nodeMapProperties

variable {NI Node : Type} [schedulerframework.NodeInfo NI Node]

/-- C17. Node context marshalling: started on an empty map, `populateNodeInfoForGRPC`
gives a wire node map with exactly the keys of the node context, which maps every node
identifier to the node that `Node()` gives for the node info of that identifier. The node
context is an argument that the function only reads: it returns the wire map alone. -/
theorem populateNodeInfo_marshals_node_context (nodeInfos : GoMap String NI) :
    (∀ k : String,
      k ∈ (grpcplugin.populateNodeInfoForGRPC nodeInfos GoMap.empty).keys ↔
        k ∈ nodeInfos.keys) ∧
    (∀ (k : String) (nodeInfo : NI), nodeInfos.get? k = some nodeInfo →
      (grpcplugin.populateNodeInfoForGRPC nodeInfos GoMap.empty).get? k =
        some (schedulerframework.NodeInfo.Node nodeInfo)) := by
  refine ⟨fun k => ?_, fun k nodeInfo h => ?_⟩
  · unfold grpcplugin.populateNodeInfoForGRPC
    rw [nodeFold_mem_keys]
    simp [GoMap.keys, GoMap.empty]
  · exact nodeFold_get?_of_nodup nodeInfos.entries GoMap.empty nodeInfos.nodupKeys (k, nodeInfo)
      (GoMap.mem_entries_of_get? nodeInfos k nodeInfo h)

/-- C17, on a node context of two nodes: the wire node map has the keys `node-1` and
`node-2` and maps `node-2` to the node of its node info. -/
theorem populateNodeInfo_marshals_node_context_witness :
    (grpcplugin.populateNodeInfoForGRPC twoNodes GoMap.empty).keys = ["node-1", "node-2"] ∧
    (grpcplugin.populateNodeInfoForGRPC twoNodes GoMap.empty).get? "node-2" =
      some "descriptor-2" :=
  ⟨by decide,
   (populateNodeInfo_marshals_node_context twoNodes).2 "node-2" ⟨"descriptor-2", 0⟩
      (by decide)⟩

end nodeMapProperties

/-! ## Further lemmas on the sanitizer and on the reverse lookup -/

section further

variable {NG Pod : Type}

theorem sanitize_nil_or_nonempty (resp : Slice (grpcplugin.Option Pod))
    (m : GoMap String (expander.Option NG Pod)) :
    grpcplugin.transformAndSanitizeOptionsFromGRPC resp m = Slice.nil ∨
      (grpcplugin.transformAndSanitizeOptionsFromGRPC resp m).toList ≠ [] := by
  by_cases hempty : resp.toList = []
  · left
    unfold grpcplugin.transformAndSanitizeOptionsFromGRPC
    rw [hempty]
    rfl
  · by_cases h : ∀ e ∈ resp.toList, ∃ v, m.get? e.NodeGroupId = some v
    · obtain ⟨r, hr, h1, _⟩ := sanitize_found resp m h
      right
      rw [h1]
      intro hr0
      rw [hr0] at hr
      exact hempty (List.forall₂_nil_left_iff.1 hr)
    · left
      refine sanitize_missing resp m ?_
      push_neg at h
      obtain ⟨e, he, hne⟩ := h
      refine ⟨e, he, ?_⟩
      cases hg : m.get? e.NodeGroupId with
      | none => rfl
      | some v => exact absurd hg (hne v)

end further

/-! ## Properties that follow from the code alone -/

section implicitProperties

variable {σ NG Pod NI Node : Type} [cloudprovider.NodeGroup NG]
  [schedulerframework.NodeInfo NI Node]

/-- C18. A non-empty input never yields an empty result: for a candidate slice with at
least one element, `BestOptions` returns a slice with at least one element, whatever the
remote call gives. -/
theorem bestOptions_nonempty_of_nonempty
    (g : grpcplugin.grpcclientstrategy σ NG Pod NI Node) (s : σ)
    (expansionOptions : Slice (expander.Option NG Pod)) (nodeInfo : GoMap String NI)
    (hne : expansionOptions.len ≠ 0) :
    (g.BestOptions s expansionOptions nodeInfo).1.len ≠ 0 := by
  rcases bestOptions_cases g s expansionOptions nodeInfo with h | ⟨resp, _, _, hnil, heq⟩
  · rw [h]
    exact hne
  · rw [heq]
    rcases sanitize_nil_or_nonempty resp.Options
      (grpcplugin.populateOptionsForGRPC expansionOptions GoMap.empty (Slice.mk [])).1
      with h1 | h1
    · exact absurd h1 hnil
    · exact fun hlen => h1 (List.length_eq_zero.1 hlen)

/-- C18, on the scenario with five remote outcomes: an error, a nil list, an empty list,
a list of offered identifiers and a list with an unknown identifier. -/
theorem bestOptions_nonempty_of_nonempty_witness :
    ((recordingStrategy (Except.error "unavailable")).BestOptions [] scenario
      GoMap.empty).1.len ≠ 0 ∧
    ((recordingStrategy (Except.ok ⟨Slice.nil⟩)).BestOptions [] scenario
      GoMap.empty).1.len ≠ 0 ∧
    ((recordingStrategy (Except.ok ⟨Slice.mk []⟩)).BestOptions [] scenario
      GoMap.empty).1.len ≠ 0 ∧
    ((recordingStrategy (Except.ok ⟨Slice.mk [entry "ng-b"]⟩)).BestOptions [] scenario
      GoMap.empty).1.len ≠ 0 ∧
    ((recordingStrategy (Except.ok ⟨Slice.mk [entry "ng-b", entry "ng-x"]⟩)).BestOptions []
      scenario GoMap.empty).1.len ≠ 0 :=
  ⟨bestOptions_nonempty_of_nonempty _ _ _ _ (by decide),
   bestOptions_nonempty_of_nonempty _ _ _ _ (by decide),
   bestOptions_nonempty_of_nonempty _ _ _ _ (by decide),
   bestOptions_nonempty_of_nonempty _ _ _ _ (by decide),
   bestOptions_nonempty_of_nonempty _ _ _ _ (by decide)⟩

end implicitProperties

/-! ## Properties of the launch-template helpers -/

/-- C11. Launch-template normalisation: the launch template that
`buildLaunchTemplateFromSpec` returns has the `LaunchTemplateName` of the specification
as its name (the empty string when that pointer is nil), the version `$Default` when the
`Version` of the specification is nil, and the specified version string otherwise. -/
theorem buildLaunchTemplateFromSpec_normalises (ltSpec : autoscaling.LaunchTemplateSpecification) :
    (buildLaunchTemplateFromSpec ltSpec).name = aws.StringValue ltSpec.LaunchTemplateName ∧
    (∀ name : String, ltSpec.LaunchTemplateName = some name →
      (buildLaunchTemplateFromSpec ltSpec).name = name) ∧
    (ltSpec.Version = none → (buildLaunchTemplateFromSpec ltSpec).version = "$Default") ∧
    (∀ version : String, ltSpec.Version = some version →
      (buildLaunchTemplateFromSpec ltSpec).version = version) := by
  refine ⟨rfl, fun name h => ?_, fun h => ?_, fun version h => ?_⟩
  · simp [buildLaunchTemplateFromSpec, h, aws.StringValue]
  · simp [buildLaunchTemplateFromSpec, h]
  · simp [buildLaunchTemplateFromSpec, h, aws.StringValue]

/-- C11, on the four cases of `TestBuildLaunchTemplateFromSpec`: the versions `1`,
`$Latest` and `$Default` are returned unchanged and the nil version gives `$Default`,
each with the name `foo`. -/
theorem buildLaunchTemplateFromSpec_normalises_witness :
    buildLaunchTemplateFromSpec ⟨none, some "foo", some "1"⟩ = ⟨"foo", "1"⟩ ∧
    buildLaunchTemplateFromSpec ⟨none, some "foo", some "$Latest"⟩ = ⟨"foo", "$Latest"⟩ ∧
    buildLaunchTemplateFromSpec ⟨none, some "foo", some "$Default"⟩ = ⟨"foo", "$Default"⟩ ∧
    buildLaunchTemplateFromSpec ⟨none, some "foo", none⟩ = ⟨"foo", "$Default"⟩ ∧
    (buildLaunchTemplateFromSpec ⟨none, some "foo", some "$Latest"⟩).version = "$Latest" ∧
    (buildLaunchTemplateFromSpec ⟨none, some "foo", none⟩).version = "$Default" :=
  ⟨by decide, by decide, by decide, by decide,
   (buildLaunchTemplateFromSpec_normalises ⟨none, some "foo", some "$Latest"⟩).2.2.2
      "$Latest" rfl,
   (buildLaunchTemplateFromSpec_normalises ⟨none, some "foo", none⟩).2.2.1 rfl⟩

/-- C16, at the failing input: when the describe operation succeeds with one template
version whose `LaunchTemplateData` is nil, `getInstanceTypeByLT` returns neither an
instance type nor an error: it stops with a nil pointer dereference. -/
theorem getInstanceTypeByLT_panics_without_data :
    (fixedDescribe (some ⟨Slice.mk [some ⟨none⟩]⟩, none)).getInstanceTypeByLT ⟨"foo", "1"⟩ =
      Except.error GoPanic.nilPointerDereference :=
  rfl

/-- What `getInstanceTypeByLT` does on the result of the describe operation, queried with
the name and the single version of the launch template: an error of the operation is
returned unchanged; with no version listed the error is `unable to find template
versions`; with a first version that has its data the result is its instance type, or
the error `unable to find instance type within launch template` when it has none; with a
first version that has no data the method stops with a nil pointer dereference. -/
theorem getInstanceTypeByLT_when_it_returns (m : ec2Wrapper) (lt : launchTemplate) :
    (∀ err, (m.ec2I.DescribeLaunchTemplateVersions (ec2Wrapper.describeParams lt)).2 = some err →
      m.getInstanceTypeByLT lt = Except.ok ("", some err)) ∧
    (∀ out, m.ec2I.DescribeLaunchTemplateVersions (ec2Wrapper.describeParams lt)
        = (some out, none) →
      (out.LaunchTemplateVersions.len = 0 →
        m.getInstanceTypeByLT lt = Except.ok ("", some "unable to find template versions")) ∧
      (∀ version data rest, out.LaunchTemplateVersions.toList = some version :: rest →
        version.LaunchTemplateData = some data →
        (data.InstanceType = none →
          m.getInstanceTypeByLT lt =
            Except.ok ("", some "unable to find instance type within launch template")) ∧
        (∀ instanceType, data.InstanceType = some instanceType →
          m.getInstanceTypeByLT lt = Except.ok (instanceType, none))) ∧
      (∀ version rest, out.LaunchTemplateVersions.toList = some version :: rest →
        version.LaunchTemplateData = none →
        m.getInstanceTypeByLT lt = Except.error GoPanic.nilPointerDereference)) := by
  refine ⟨fun err h => ?_, fun out h => ⟨fun hzero => ?_, fun version data rest hl hd =>
    ⟨fun hnone => ?_, fun instanceType hsome => ?_⟩, fun version rest hl hd => ?_⟩⟩
  · unfold ec2Wrapper.describeParams at h
    simp only [ec2Wrapper.getInstanceTypeByLT, h]
  · unfold ec2Wrapper.describeParams at h
    have h0 : out.LaunchTemplateVersions.toList = [] := List.length_eq_zero.1 hzero
    simp only [ec2Wrapper.getInstanceTypeByLT, h, h0]
  · unfold ec2Wrapper.describeParams at h
    simp only [ec2Wrapper.getInstanceTypeByLT, h, hl, hd, hnone]
  · unfold ec2Wrapper.describeParams at h
    simp only [ec2Wrapper.getInstanceTypeByLT, h, hl, hd, hsome]
  · unfold ec2Wrapper.describeParams at h
    simp only [ec2Wrapper.getInstanceTypeByLT, h, hl, hd]

/-! ## Properties of the deadline of the remote call -/

section deadline

variable {σ NG Pod NI Node Creds Conn : Type} [cloudprovider.NodeGroup NG]
  [schedulerframework.NodeInfo NI Node]

end deadline
